import Mathlib

/-!
Verification of the Comander core (commander-core) against its
natural-language specification.

The Python sources are shallowly embedded:
* money amounts (Python floats holding USD values) become `ℚ`;
* Python strings become Lean `String`, with the handful of string
  operations the code uses (substring test, upper-casing, splitting on a
  newline, joining) implemented structurally over `String.data` so that
  concrete inputs evaluate inside the kernel;
* fallible code returns `Except` / explicit result values instead of
  raising, and mutation becomes explicit state passing;
* the LiteLLM completion backend, the tool executor and the subprocess
  runner are abstracted as arbitrary functions, so theorems quantify over
  every possible behaviour of those collaborators.
-/

namespace Comander

/-! ## String primitives

Python string operations used by the sources, implemented structurally
over the character list of a `String`. -/

/-- Membership test for Python `needle in hay`: does `needle` occur as a
contiguous substring of `hay`? -/
def hasInfix (needle : List Char) : List Char → Bool
  | [] => needle.isEmpty
  | x :: rest => needle.isPrefixOf (x :: rest) || hasInfix needle rest

/-- Python `needle in hay` on strings. -/
def strIn (needle hay : String) : Bool :=
  hasInfix needle.data hay.data

/-- Python `s.upper()` (the sources only feed ASCII text to it). -/
def pyUpper (s : String) : String :=
  String.mk (s.data.map Char.toUpper)

/-- Python `s.startswith(p)`. -/
def pyStartsWith (s p : String) : Bool :=
  p.data.isPrefixOf s.data

/-- Splitting of a character list at every occurrence of `c`, the
separator characters being dropped (semantics of Python `s.split(c)` for a
one-character separator). -/
def splitOnChar (c : Char) : List Char → List (List Char)
  | [] => [[]]
  | x :: xs =>
    match splitOnChar c xs with
    | [] => [[x]]
    | r :: rs => if x = c then [] :: r :: rs else (x :: r) :: rs

/-- Python `s.split(sep)` for a one-character separator `sep`. -/
def pySplit (s : String) (c : Char) : List String :=
  (splitOnChar c s.data).map String.mk

/-- Python `sep.join(xs)`. -/
def pyJoin (sep : String) : List String → String
  | [] => ""
  | [x] => x
  | x :: y :: rest => x ++ sep ++ pyJoin sep (y :: rest)

/-- Correctness of `hasInfix` against the mathematical infix relation on
lists. -/
theorem hasInfix_iff (needle hay : List Char) :
    hasInfix needle hay = true ↔ needle <:+: hay := by
  induction hay with
  | nil =>
    simp [hasInfix, List.isEmpty_iff, List.infix_nil]
  | cons x rest ih =>
    simp only [hasInfix, Bool.or_eq_true, List.isPrefixOf_iff_prefix, ih,
      List.infix_cons_iff]

/-! ## CFOController (src/commander-core/cfo.py)

The ledger tracking daily API spend. `current_daily_spend` starts at `0.0`
and `max_daily_spend` is the configured ceiling. -/

/-- State of the CFO module: the spend ceiling and the running spend. -/
structure CFOController where
  max_daily_spend : ℚ
  current_daily_spend : ℚ
  deriving Repr, DecidableEq

/-- Outcome of one `add_cost` call: either it returns normally, or it
raises `TokenLimitExceeded`; the exception message carries the configured
limit and the updated spend (the two quantities interpolated into the
f-string of cfo.py). -/
inductive AddCostResult where
  | ok : AddCostResult
  | tokenLimitExceeded (limit spent : ℚ) : AddCostResult
  deriving Repr, DecidableEq

/-- Embedding of `CFOController.add_cost`: the spend is incremented
first, and only then compared against the ceiling, so the breaching call
is still charged (post-hoc check).  Returns the updated state together
with the call outcome. -/
def add_cost (c : CFOController) (cost_usd : ℚ) : CFOController × AddCostResult :=
  let c2 : CFOController :=
    { c with current_daily_spend := c.current_daily_spend + cost_usd }
  if c2.current_daily_spend > c2.max_daily_spend then
    (c2, .tokenLimitExceeded c2.max_daily_spend c2.current_daily_spend)
  else
    (c2, .ok)

/-- Embedding of the `pricing_map` literal of `estimate_cost`: per-model
input/output USD rates per token. -/
def pricing_map (model : String) : Option (ℚ × ℚ) :=
  if model = "gpt-4o" then some (0.005 / 1000, 0.015 / 1000)
  else if model = "deepseek-coder" then some (0.00014 / 1000, 0.00028 / 1000)
  else if model = "llama3" then some (0, 0)
  else none

/-- Fallback safe rates used by `estimate_cost` for a model missing from
`pricing_map`. -/
def fallback_rates : ℚ × ℚ := (0.01 / 1000, 0.03 / 1000)

/-- Embedding of `CFOController.estimate_cost` (a pure function of the
token counts and the model name). -/
def estimate_cost (prompt_tokens completion_tokens : ℕ) (model : String) : ℚ :=
  let rates := (pricing_map model).getD fallback_rates
  prompt_tokens * rates.1 + completion_tokens * rates.2

/-- Observable content of `CFOController.get_financial_summary`: the
summary string interpolates exactly the current spend and the ceiling
(string formatting elided); the method reads the state and does not
modify it. -/
def get_financial_summary (c : CFOController) : ℚ × ℚ :=
  (c.current_daily_spend, c.max_daily_spend)

/-- Fresh ledger as built by `CFOController.__init__` for a given
configured ceiling: spend starts at zero. -/
def freshCFO (ceiling : ℚ) : CFOController :=
  { max_daily_spend := ceiling, current_daily_spend := 0 }

/-- Running of a whole sequence of `add_cost` calls, returning the final
state and the per-call outcomes in order. -/
def runCosts (c : CFOController) : List ℚ → CFOController × List AddCostResult
  | [] => (c, [])
  | x :: xs =>
    let step := add_cost c x
    let rest := runCosts step.1 xs
    (rest.1, step.2 :: rest.2)

theorem add_cost_spend (c : CFOController) (x : ℚ) :
    (add_cost c x).1.current_daily_spend = c.current_daily_spend + x := by
  simp only [add_cost]
  split <;> rfl

theorem add_cost_ceiling (c : CFOController) (x : ℚ) :
    (add_cost c x).1.max_daily_spend = c.max_daily_spend := by
  simp only [add_cost]
  split <;> rfl

theorem runCosts_spend (costs : List ℚ) (c : CFOController) :
    (runCosts c costs).1.current_daily_spend
      = c.current_daily_spend + costs.sum := by
  induction costs generalizing c with
  | nil => simp [runCosts]
  | cons x xs ih =>
    simp only [runCosts, List.sum_cons, ih, add_cost_spend]
    ring

/-- Characterization of the outcome of the `j`-th call in a sequence of
`add_cost` calls: it raises exactly when the cumulative spend up to and
including that call exceeds the ceiling, and the exception carries the
ceiling and that cumulative spend. -/
theorem runCosts_getElem (costs : List ℚ) (c : CFOController) (j : ℕ)
    (hj : j < costs.length) :
    (runCosts c costs).2[j]? =
      some (if c.current_daily_spend + (costs.take (j + 1)).sum > c.max_daily_spend
        then .tokenLimitExceeded c.max_daily_spend
          (c.current_daily_spend + (costs.take (j + 1)).sum)
        else AddCostResult.ok) := by
  induction costs generalizing c j with
  | nil => simp at hj
  | cons x xs ih =>
    have hcons : (runCosts c (x :: xs)).2
        = (add_cost c x).2 :: (runCosts (add_cost c x).1 xs).2 := rfl
    cases j with
    | zero =>
      rw [hcons, List.getElem?_cons_zero, List.take_succ_cons, List.take_zero]
      simp only [List.sum_cons, List.sum_nil, add_zero, add_cost]
      split <;> rfl
    | succ j =>
      have hj' : j < xs.length := by simpa using hj
      rw [hcons, List.getElem?_cons_succ, ih _ _ hj', add_cost_spend,
        add_cost_ceiling, List.take_succ_cons]
      have harr : c.current_daily_spend + x + (xs.take (j + 1)).sum
          = c.current_daily_spend + (x :: xs.take (j + 1)).sum := by
        rw [List.sum_cons]; ring
      rw [harr]

/-- Operations performed on the ledger over the lifetime of the process.
`add_cost` has exactly one call site in the repository
(router.py line 136), where its argument is `estimate_cost` applied to the
token counts of a backend response, so the charge operation is recorded
with those token counts; `estimate_cost` and `get_financial_summary` are
the other two ledger entry points and are read-only. -/
inductive CFOOp where
  | chargeResponse (prompt_tokens completion_tokens : ℕ) (model : String) : CFOOp
  | estimateOnly (prompt_tokens completion_tokens : ℕ) (model : String) : CFOOp
  | financialSummary : CFOOp

/-- Effect of one ledger operation on the CFO state. -/
def applyOp (c : CFOController) : CFOOp → CFOController
  | .chargeResponse p k m => (add_cost c (estimate_cost p k m)).1
  | .estimateOnly _ _ _ => c
  | .financialSummary => c

/-- Effect of a sequence of ledger operations. -/
def applyOps (c : CFOController) (ops : List CFOOp) : CFOController :=
  ops.foldl applyOp c

theorem pricing_map_rates_nonneg (model : String) (r : ℚ × ℚ)
    (h : pricing_map model = some r) : 0 ≤ r.1 ∧ 0 ≤ r.2 := by
  unfold pricing_map at h
  split at h <;> try split at h
  all_goals first
  | (injection h with h; subst h; constructor <;> norm_num)
  | (split at h
     · injection h with h; subst h; constructor <;> norm_num
     · exact absurd h (by simp))

theorem estimate_cost_nonneg (p k : ℕ) (model : String) :
    0 ≤ estimate_cost p k model := by
  unfold estimate_cost
  have hr : 0 ≤ ((pricing_map model).getD fallback_rates).1
      ∧ 0 ≤ ((pricing_map model).getD fallback_rates).2 := by
    cases h : pricing_map model with
    | none => simp [fallback_rates]; constructor <;> norm_num
    | some r => simpa using pricing_map_rates_nonneg model r h
  have hp : (0 : ℚ) ≤ (p : ℚ) := by positivity
  have hk : (0 : ℚ) ≤ (k : ℚ) := by positivity
  exact add_nonneg (mul_nonneg hp hr.1) (mul_nonneg hk hr.2)

theorem applyOp_spend_mono (c : CFOController) (op : CFOOp) :
    c.current_daily_spend ≤ (applyOp c op).current_daily_spend := by
  cases op with
  | chargeResponse p k m =>
    simp only [applyOp, add_cost_spend]
    have := estimate_cost_nonneg p k m
    linarith
  | estimateOnly p k m => simp [applyOp]
  | financialSummary => simp [applyOp]

theorem applyOps_spend_mono (ops : List CFOOp) (c : CFOController) :
    c.current_daily_spend ≤ (applyOps c ops).current_daily_spend := by
  induction ops generalizing c with
  | nil => simp [applyOps]
  | cons op rest ih =>
    calc c.current_daily_spend
        ≤ (applyOp c op).current_daily_spend := applyOp_spend_mono c op
      _ ≤ (applyOps (applyOp c op) rest).current_daily_spend := ih _
      _ = (applyOps c (op :: rest)).current_daily_spend := rfl

/-! ## IOJail (src/commander-core/io_jail.py)

Filesystem paths are embedded as lists of components.  An input path is a
pair of an absoluteness flag and its components; `Path.resolve()` becomes
the lexical canonicalization that makes the path absolute against the
current working directory and collapses empty, `.` and `..` components
(symlink-free filesystem).  The jail root `allowed_directory` is already
canonical (it is resolved in `IOJail.__init__`). -/

/-- Input path: `isAbsolute` says whether it starts with the filesystem
root, `parts` are its components in order. -/
structure PyPath where
  isAbsolute : Bool
  parts : List String
  deriving Repr, DecidableEq

/-- Processing of one component during canonicalization: empty and `.`
components disappear, `..` removes the last surviving component (at the
root it is a no-op, as in POSIX), anything else is appended. -/
def resolveStep (acc : List String) (comp : String) : List String :=
  if comp = "" then acc
  else if comp = "." then acc
  else if comp = ".." then acc.dropLast
  else acc ++ [comp]

/-- Embedding of `Path(target).resolve()`: make the path absolute against
the current working directory `cwd` (itself canonical), then collapse
`.`/`..`/empty components.  The result is the component list of a
canonical absolute path. -/
def resolvePath (cwd : List String) (p : PyPath) : List String :=
  (if p.isAbsolute then p.parts else cwd ++ p.parts).foldl resolveStep []

/-- Data carried by `SecurityViolationError`: the message interpolates
the resolved path and the jail root. -/
structure SecurityViolationError where
  resolved : List String
  allowed : List String
  deriving Repr, DecidableEq

/-- Embedding of `IOJail._verify_path`: resolve the target, then test
containment with `resolved_path.relative_to(self.allowed_directory)`,
which succeeds exactly when the components of the root are a
component-wise leading segment of the components of the resolved path
(pathlib semantics for two
absolute paths); on failure raise `SecurityViolationError`. -/
def verify_path (allowed cwd : List String) (target : PyPath) :
    Except SecurityViolationError (List String) :=
  let resolved := resolvePath cwd target
  if allowed.isPrefixOf resolved then .ok resolved
  else .error ⟨resolved, allowed⟩

/-- Errors that `read_file`/`write_file` can raise. -/
inductive JailError where
  | security (e : SecurityViolationError) : JailError
  | fileNotFound (path : List String) : JailError
  deriving Repr, DecidableEq

/-- Jail filesystem contents: an association list from canonical absolute
paths to file contents. -/
def JailFS : Type := List (List String × String)

/-- Lookup of a file in the modelled filesystem. -/
def fsRead (fs : JailFS) (path : List String) : Option String :=
  match fs with
  | [] => none
  | (p, content) :: rest => if p = path then some content else fsRead rest path

/-- Overwrite-or-create of a file in the modelled filesystem. -/
def fsWrite (fs : JailFS) (path : List String) (content : String) : JailFS :=
  match fs with
  | [] => [(path, content)]
  | (p, old) :: rest =>
    if p = path then (p, content) :: rest else (p, old) :: fsWrite rest path content

/-- Embedding of `IOJail.read_file`: verify first, then read; a failed
verification raises before any filesystem access. -/
def read_file (allowed cwd : List String) (fs : JailFS) (filepath : PyPath) :
    Except JailError String :=
  match verify_path allowed cwd filepath with
  | .error e => .error (.security e)
  | .ok safe_path =>
    match fsRead fs safe_path with
    | none => .error (.fileNotFound safe_path)
    | some content => .ok content

/-- Embedding of `IOJail.write_file`: verify first, then write; the
returned filesystem is the state after the call, so a failed verification
leaves it untouched. -/
def write_file (allowed cwd : List String) (fs : JailFS) (filepath : PyPath)
    (content : String) : JailFS × Except JailError Unit :=
  match verify_path allowed cwd filepath with
  | .error e => (fs, .error (.security e))
  | .ok safe_path => (fsWrite fs safe_path content, .ok ())

/-! ## ModelOrchestrator (src/commander-core/router.py)

The ReAct loop `_route_request`.  The LiteLLM `completion` backend and the
tool executor `_execute_tool` are abstracted as arbitrary functions, so
every theorem below quantifies over all behaviours of both.  Tool
execution may itself charge the shared CFO singleton (the tools call back
into the router), so the abstract executor threads the CFO state. -/

/-- Usage block of a backend response. -/
structure Usage where
  prompt_tokens : ℕ
  completion_tokens : ℕ
  deriving Repr, DecidableEq

/-- Tool call emitted by the backend (`tool_call.id`,
`tool_call.function.name`, `tool_call.function.arguments`). -/
structure ToolCall where
  id : String
  name : String
  arguments : String
  deriving Repr, DecidableEq

/-- Assistant message of a backend response: optional text content plus
the (possibly empty) tool-call list; `tool_calls = []` covers both an
absent and an empty Python `tool_calls` attribute, which the code treats
alike. -/
structure RespMessage where
  content : Option String
  tool_calls : List ToolCall
  deriving Repr, DecidableEq

/-- Result of one `completion(...)` call: a response (with its usage
block when present) or a raised exception with message `err`. -/
inductive CompletionResult where
  | success (msg : RespMessage) (usage : Option Usage) : CompletionResult
  | exn (err : String) : CompletionResult

/-- Conversation message as appended by `_route_request`. -/
inductive Message where
  | system (content : String) : Message
  | user (content : String) : Message
  | assistant (msg : RespMessage) : Message
  | tool (name : String) (content : String) (tool_call_id : String) : Message
  deriving Repr, DecidableEq

/-- Abstract collaborators of `_route_request`: `complete n msgs` is the
answer of the backend to the `n`-th request this invocation sends with
conversation `msgs`; `execTool` is `_execute_tool` plus the JSON argument
decoding, which never raises (the real `_execute_tool` catches every
exception into a result string) but may charge the shared CFO through
nested router calls. -/
structure Backend where
  complete : ℕ → List Message → CompletionResult
  execTool : CFOController → ToolCall → String × CFOController

/-- State threaded through one `_route_request` invocation, extended with
two instrumentation fields: `requests` counts the `completion` calls this
invocation has issued and `executed` logs the tool calls it has run. -/
structure RouteState where
  messages : List Message
  cfo : CFOController
  requests : ℕ
  executed : List ToolCall

/-- Value of `self.max_agent_loops` (router.py line 93). -/
def max_agent_loops : ℕ := 5

/-- Sentinel returned when the loop bound is hit, with
`self.max_agent_loops` interpolated. -/
def loopSentinel : String :=
  "ERROR: Maximum Agent Loop Count (5) exceeded. Forced abort."

/-- Sentinel returned when `TokenLimitExceeded` is caught. -/
def breakerSentinel : String :=
  "ERROR: FINANCIAL CIRCUIT BREAKER. Daily spend limit reached."

/-- Sentinel prefixed to the message of any other caught exception. -/
def backendFailSentinel (err : String) : String :=
  "ERROR: Model generation failed. Details: " ++ err

/-- Replacement of a falsy final content with the fixed sentinel
(`response_msg.content or "Task completed silently."`). -/
def finalContent : Option String → String
  | none => "Task completed silently."
  | some s => if s = "" then "Task completed silently." else s

/-- Execution of the tool calls of one turn, in order: each call runs
through the executor and appends one tool-result message correlated by
its id (the body of the `for tool_call in response_msg.tool_calls`
loop). -/
def execToolCalls (be : Backend) : List ToolCall → RouteState → RouteState
  | [], s => s
  | tc :: rest, s =>
    let r := be.execTool s.cfo tc
    execToolCalls be rest
      { s with
        cfo := r.2
        messages := s.messages ++ [.tool tc.name r.1 tc.id]
        executed := s.executed ++ [tc] }

/-- Body of the `while loops < self.max_agent_loops` loop of
`_route_request`, with `fuel = max_agent_loops - loops`.  Each iteration
issues one backend request; on a response it charges the ledger (when a
usage block is present) via `add_cost ∘ estimate_cost`, catching
`TokenLimitExceeded` into the circuit-breaker sentinel; then it either
executes the tool calls and loops, or returns the final content.  Any
other backend exception becomes the generic error sentinel.  Falling out
of the loop yields the loop-exceeded sentinel. -/
def routeGo (be : Backend) (model_choice : String) :
    ℕ → ℕ → RouteState → String × RouteState
  | 0, _, s => (loopSentinel, s)
  | fuel + 1, loops, s =>
    match be.complete loops s.messages with
    | .exn err => (backendFailSentinel err, { s with requests := s.requests + 1 })
    | .success msg usage =>
      let s1 := { s with requests := s.requests + 1 }
      match usage with
      | some u =>
        let charge := add_cost s1.cfo
          (estimate_cost u.prompt_tokens u.completion_tokens model_choice)
        let s2 := { s1 with cfo := charge.1 }
        match charge.2 with
        | .tokenLimitExceeded _ _ => (breakerSentinel, s2)
        | .ok =>
          match msg.tool_calls with
          | [] => (finalContent msg.content, s2)
          | tc :: rest =>
            let s3 := { s2 with messages := s2.messages ++ [.assistant msg] }
            routeGo be model_choice fuel (loops + 1)
              (execToolCalls be (tc :: rest) s3)
      | none =>
        match msg.tool_calls with
        | [] => (finalContent msg.content, s1)
        | tc :: rest =>
          let s3 := { s1 with messages := s1.messages ++ [.assistant msg] }
          routeGo be model_choice fuel (loops + 1)
            (execToolCalls be (tc :: rest) s3)

/-- Embedding of `ModelOrchestrator._route_request` for a fixed model
choice, starting from the copied caller messages and the current CFO
state. -/
def route_request (be : Backend) (model_choice : String)
    (messages : List Message) (cfo0 : CFOController) : String × RouteState :=
  routeGo be model_choice max_agent_loops 0
    { messages := messages, cfo := cfo0, requests := 0, executed := [] }

/-- Embedding of the decision step of `ModelOrchestrator.ask_watchdog`:
the response text returned by `_route_request` is upper-cased and tested
for the substring `"YES"`. -/
def ask_watchdog_decision (response : String) : Bool :=
  strIn "YES" (pyUpper response)

/-! ## Surgeon (src/commander-core/surgeon.py)

Fence stripping of `refactor_file` and the bounded validate-and-repair
loop of `validate_code`.  The subprocess runner and the repair call are
abstracted: `runs k` is the outcome of the `k`-th execution of the
validation command and `refactorOk k` is the boolean returned by the
`k`-th repair call to `refactor_file` (whose return value the loop
discards). -/

/-- Fence-stripping step of `Surgeon.refactor_file` (lines 30-40): when
the fence marker occurs anywhere in the rewritten text, scan it line by
line; a line beginning with the marker toggles `in_block` and is
discarded; other lines are kept exactly when `in_block` is true; without
any marker the text is used verbatim. -/
def stripStep (st : Bool × List String) (line : String) : Bool × List String :=
  if pyStartsWith line "```" then (!st.1, st.2)
  else if st.1 then (st.1, st.2 ++ [line]) else st

/-- Embedding of the fence-stripping block of `Surgeon.refactor_file`. -/
def stripFences (new_code : String) : String :=
  if strIn "```" new_code then
    pyJoin "\n" ((pySplit new_code '\n').foldl stripStep (false, [])).2
  else new_code

/-- Value of `self.max_retries` (surgeon.py line 10). -/
def max_retries : ℕ := 3

/-- Outcome of one `subprocess.run` of the validation command. -/
inductive RunOutcome where
  | exited (returncode : Int) (stdout stderr : String) : RunOutcome
  | timedOut : RunOutcome
  | execFailed (err : String) : RunOutcome

/-- Abstract environment of `Surgeon.validate_code`: the outcome of each
command execution and the result of each repair call. -/
structure ValidationWorld where
  runs : ℕ → RunOutcome
  refactorOk : ℕ → Bool

/-- Observable trace of one `validate_code` call: its boolean result, how
many times the command was executed, and the repair objectives passed to
`refactor_file`, in order. -/
structure ValidateTrace where
  result : Bool
  runsMade : ℕ
  repairs : List String
  deriving Repr, DecidableEq

/-- Repair objective built on a non-zero exit (surgeon.py line 73), with
the space-joined command and the captured error log interpolated. -/
def repairObjective (command : List String) (error_log : String) : String :=
  "The following code failed validation via command `"
    ++ pyJoin " " command
    ++ "`:\n\nError Log:\n" ++ error_log ++ "\n\nFix it."

/-- Body of the `while retries < self.max_retries` loop of
`Surgeon.validate_code`, with `fuel = max_retries - retries`: exit code 0
returns `true` at once; a non-zero exit picks
`result.stderr or result.stdout` as the error log, calls `refactor_file`
with the repair objective (the returned boolean is bound and discarded,
exactly as the source discards it), increments the retry counter and
loops; `subprocess.TimeoutExpired` or any other executor exception breaks
out of the loop, which then returns `false`; exhausted retries return
`false`. -/
def validateGo (w : ValidationWorld) (command : List String) :
    ℕ → ℕ → List String → ValidateTrace
  | 0, made, reps => ⟨false, made, reps⟩
  | fuel + 1, made, reps =>
    match w.runs made with
    | .exited returncode stdout stderr =>
      if returncode = 0 then ⟨true, made + 1, reps⟩
      else
        let error_log := if stderr = "" then stdout else stderr
        let objective := repairObjective command error_log
        let _discarded := w.refactorOk reps.length
        validateGo w command fuel (made + 1) (reps ++ [objective])
    | .timedOut => ⟨false, made + 1, reps⟩
    | .execFailed _ => ⟨false, made + 1, reps⟩

/-- Embedding of `Surgeon.validate_code`. -/
def validate_code (w : ValidationWorld) (command : List String) : ValidateTrace :=
  validateGo w command max_retries 0 []

/-! ## Helper lemmas about the ReAct loop -/

theorem execToolCalls_requests (be : Backend) (tcs : List ToolCall)
    (s : RouteState) : (execToolCalls be tcs s).requests = s.requests := by
  induction tcs generalizing s with
  | nil => rfl
  | cons tc rest ih => simp only [execToolCalls]; rw [ih]

theorem routeGo_requests_le (be : Backend) (mc : String) (fuel : ℕ) :
    ∀ (loops : ℕ) (s : RouteState),
      (routeGo be mc fuel loops s).2.requests ≤ s.requests + fuel := by
  induction fuel with
  | zero => intro loops s; simp [routeGo]
  | succ fuel ih =>
    intro loops s
    simp only [routeGo]
    cases hresp : be.complete loops s.messages with
    | exn err => dsimp only; omega
    | success msg usage =>
      cases usage with
      | some u =>
        dsimp only
        cases hch : (add_cost s.cfo
            (estimate_cost u.prompt_tokens u.completion_tokens mc)).2 with
        | tokenLimitExceeded l sp => dsimp only; omega
        | ok =>
          dsimp only
          cases htc : msg.tool_calls with
          | nil => dsimp only; omega
          | cons tc rest =>
            dsimp only
            refine Nat.le_trans (ih (loops + 1) _) ?_
            rw [execToolCalls_requests]
            dsimp only
            omega
      | none =>
        dsimp only
        cases htc : msg.tool_calls with
        | nil => dsimp only; omega
        | cons tc rest =>
          dsimp only
          refine Nat.le_trans (ih (loops + 1) _) ?_
          rw [execToolCalls_requests]
          dsimp only
          omega

theorem routeGo_all_tools (be : Backend) (mc : String)
    (h : ∀ n msgs, ∃ m, be.complete n msgs = .success m none
      ∧ m.tool_calls ≠ []) (fuel : ℕ) :
    ∀ (loops : ℕ) (s : RouteState),
      (routeGo be mc fuel loops s).1 = loopSentinel
      ∧ (routeGo be mc fuel loops s).2.requests = s.requests + fuel := by
  induction fuel with
  | zero => intro loops s; exact ⟨rfl, rfl⟩
  | succ fuel ih =>
    intro loops s
    obtain ⟨m, hm, htc⟩ := h loops s.messages
    simp only [routeGo, hm]
    cases hcs : m.tool_calls with
    | nil => exact absurd hcs htc
    | cons tc rest =>
      dsimp only
      refine ⟨(ih (loops + 1) _).1, ?_⟩
      rw [(ih (loops + 1) _).2, execToolCalls_requests]
      dsimp only
      omega

/-! ## Helper lemmas about the validate-and-repair loop -/

theorem validateGo_exit_zero (w : ValidationWorld) (cmd : List String)
    (fuel made : ℕ) (reps : List String) (stdout stderr : String)
    (h : w.runs made = .exited 0 stdout stderr) :
    validateGo w cmd (fuel + 1) made reps = ⟨true, made + 1, reps⟩ := by
  simp [validateGo, h]

theorem validateGo_exit_nonzero (w : ValidationWorld) (cmd : List String)
    (fuel made : ℕ) (reps : List String) (code : Int) (stdout stderr : String)
    (hc : code ≠ 0) (h : w.runs made = .exited code stdout stderr) :
    validateGo w cmd (fuel + 1) made reps
      = validateGo w cmd fuel (made + 1)
          (reps ++ [repairObjective cmd (if stderr = "" then stdout else stderr)]) := by
  simp [validateGo, h, hc]

theorem validateGo_timeout (w : ValidationWorld) (cmd : List String)
    (fuel made : ℕ) (reps : List String)
    (h : w.runs made = .timedOut) :
    validateGo w cmd (fuel + 1) made reps = ⟨false, made + 1, reps⟩ := by
  simp [validateGo, h]

theorem validateGo_all_nonzero (w : ValidationWorld) (cmd : List String)
    (fuel : ℕ) :
    ∀ (made : ℕ) (reps : List String),
      (∀ k, k < fuel → ∃ code stdout stderr,
        w.runs (made + k) = .exited code stdout stderr ∧ code ≠ 0) →
      (validateGo w cmd fuel made reps).result = false
      ∧ (validateGo w cmd fuel made reps).runsMade = made + fuel
      ∧ (validateGo w cmd fuel made reps).repairs.length = reps.length + fuel := by
  induction fuel with
  | zero => intro made reps _; exact ⟨rfl, rfl, rfl⟩
  | succ fuel ih =>
    intro made reps hall
    obtain ⟨code, stdout, stderr, hrun, hc⟩ := hall 0 (Nat.succ_pos fuel)
    rw [Nat.add_zero] at hrun
    rw [validateGo_exit_nonzero w cmd fuel made reps code stdout stderr hc hrun]
    have hall' : ∀ k, k < fuel → ∃ code stdout stderr,
        w.runs (made + 1 + k) = .exited code stdout stderr ∧ code ≠ 0 := by
      intro k hk
      have := hall (k + 1) (by omega)
      rwa [show made + (k + 1) = made + 1 + k by omega] at this
    obtain ⟨h1, h2, h3⟩ := ih (made + 1) _ hall'
    refine ⟨h1, ?_, ?_⟩
    · rw [h2]; omega
    · rw [h3]; simp; omega

theorem validateGo_refactor_independent (runs : ℕ → RunOutcome)
    (r1 r2 : ℕ → Bool) (cmd : List String) (fuel : ℕ) :
    ∀ (made : ℕ) (reps : List String),
      validateGo ⟨runs, r1⟩ cmd fuel made reps
        = validateGo ⟨runs, r2⟩ cmd fuel made reps := by
  induction fuel with
  | zero => intro made reps; rfl
  | succ fuel ih =>
    intro made reps
    simp only [validateGo]
    cases runs made with
    | exited code stdout stderr =>
      dsimp only
      split
      · rfl
      · exact ih (made + 1) _
    | timedOut => rfl
    | execFailed err => rfl

/-! ## Claim theorems -/

/-- C1: for every input path whose canonicalized form (made absolute with
`.`/`..` collapsed) lies outside the jail root, `_verify_path` raises
`SecurityViolationError` carrying that canonical form and the root, and
`read_file`/`write_file` built on it fail with that error before any
filesystem access, leaving the filesystem unchanged.  Containment is
decided component-wise on the canonical path, so the sibling `/jailx` is
rejected for root `/jail`, and for root `/jail` the input
`/jail/../etc/passwd` is rejected. -/
theorem verify_path_rejects_outside (allowed cwd : List String)
    (target : PyPath) (fs : JailFS) (content : String)
    (h : ¬ allowed <+: resolvePath cwd target) :
    verify_path allowed cwd target = .error ⟨resolvePath cwd target, allowed⟩
    ∧ read_file allowed cwd fs target
        = .error (.security ⟨resolvePath cwd target, allowed⟩)
    ∧ (write_file allowed cwd fs target content).1 = fs
    ∧ (write_file allowed cwd fs target content).2
        = .error (.security ⟨resolvePath cwd target, allowed⟩)
    ∧ verify_path ["jail"] [] ⟨true, ["jailx"]⟩ = .error ⟨["jailx"], ["jail"]⟩
    ∧ verify_path ["jail"] [] ⟨true, ["jail", "..", "etc", "passwd"]⟩
        = .error ⟨["etc", "passwd"], ["jail"]⟩ := by
  have hb : allowed.isPrefixOf (resolvePath cwd target) = false := by
    rw [Bool.eq_false_iff]
    intro hcontra
    exact h (( List.isPrefixOf_iff_prefix).mp hcontra)
  refine ⟨?_, ?_, ?_, ?_, by rfl, by rfl⟩
  · simp [verify_path, hb]
  · simp [read_file, verify_path, hb]
  · simp [write_file, verify_path, hb]
  · simp [write_file, verify_path, hb]

/-- Witness for C1 at the concrete scenario of the claim: root `/jail`,
input `/jail/../etc/passwd`. -/
theorem verify_path_rejects_outside_witness :
    (¬ ["jail"] <+: resolvePath [] ⟨true, ["jail", "..", "etc", "passwd"]⟩)
    ∧ verify_path ["jail"] [] ⟨true, ["jail", "..", "etc", "passwd"]⟩
        = .error ⟨["etc", "passwd"], ["jail"]⟩ :=
  ⟨by decide,
    (verify_path_rejects_outside ["jail"] []
      ⟨true, ["jail", "..", "etc", "passwd"]⟩ [] "" (by decide)).2.2.2.2.2⟩

/-- C2: starting from a fresh ledger with a fixed ceiling, the first
`add_cost` call whose cumulative sum strictly exceeds the ceiling raises
`TokenLimitExceeded` reporting a spend equal to the cumulative sum
including that call (the breaching call is still charged), and every
earlier call in the sequence returns normally. -/
theorem add_cost_first_breach (ceiling : ℚ) (costs : List ℚ) (i : ℕ)
    (hi : i < costs.length)
    (hbreach : ceiling < (costs.take (i + 1)).sum)
    (hbefore : ∀ j, j < i → (costs.take (j + 1)).sum ≤ ceiling) :
    (runCosts (freshCFO ceiling) costs).2[i]?
        = some (.tokenLimitExceeded ceiling ((costs.take (i + 1)).sum))
    ∧ (∀ j, j < i → (runCosts (freshCFO ceiling) costs).2[j]? = some .ok)
    ∧ (runCosts (freshCFO ceiling) (costs.take (i + 1))).1.current_daily_spend
        = (costs.take (i + 1)).sum := by
  refine ⟨?_, ?_, ?_⟩
  · rw [runCosts_getElem costs (freshCFO ceiling) i hi]
    simp only [freshCFO, zero_add]
    rw [if_pos hbreach]
  · intro j hj
    rw [runCosts_getElem costs (freshCFO ceiling) j (by omega)]
    simp only [freshCFO, zero_add]
    rw [if_neg (by exact not_lt.mpr (hbefore j hj))]
  · rw [runCosts_spend]
    simp [freshCFO]

/-- Witness for C2 at the scenario of the claim: ceiling `2.00`,
`add_cost(1.50)` succeeds, `add_cost(0.60)` raises reporting spend
`2.10`. -/
theorem add_cost_first_breach_witness :
    (1 < ([(1.50 : ℚ), 0.60]).length
      ∧ (2.00 : ℚ) < ([(1.50 : ℚ), 0.60].take 2).sum
      ∧ ∀ j, j < 1 → ([(1.50 : ℚ), 0.60].take (j + 1)).sum ≤ 2.00)
    ∧ ((runCosts (freshCFO 2.00) [1.50, 0.60]).2[1]?
        = some (.tokenLimitExceeded 2.00 (([(1.50 : ℚ), 0.60].take 2).sum))
      ∧ (∀ j, j < 1 → (runCosts (freshCFO 2.00) [1.50, 0.60]).2[j]? = some .ok)
      ∧ (runCosts (freshCFO 2.00) ([(1.50 : ℚ), 0.60].take 2)).1.current_daily_spend
          = ([(1.50 : ℚ), 0.60].take 2).sum) :=
  ⟨⟨by norm_num, by norm_num,
      fun j hj => by interval_cases j; norm_num⟩,
    add_cost_first_breach 2.00 [1.50, 0.60] 1 (by norm_num) (by norm_num)
      (fun j hj => by interval_cases j; norm_num)⟩

/-- C3: over every sequence of ledger operations the process performs
(`add_cost` at its sole call site charging an `estimate_cost` result, the
read-only `estimate_cost`, and the read-only `get_financial_summary`),
`current_daily_spend` is monotonically non-decreasing: no single
operation, and hence no sequence of operations, ever makes it smaller. -/
theorem current_daily_spend_monotone :
    (∀ (c : CFOController) (op : CFOOp),
      c.current_daily_spend ≤ (applyOp c op).current_daily_spend)
    ∧ ∀ (c : CFOController) (ops : List CFOOp),
      c.current_daily_spend ≤ (applyOps c ops).current_daily_spend :=
  ⟨applyOp_spend_mono, fun c ops => applyOps_spend_mono ops c⟩

theorem add_cost_breach (c : CFOController) (x : ℚ)
    (h : c.max_daily_spend < c.current_daily_spend + x) :
    add_cost c x = ({ c with current_daily_spend := c.current_daily_spend + x },
      .tokenLimitExceeded c.max_daily_spend (c.current_daily_spend + x)) := by
  unfold add_cost
  dsimp only
  rw [if_pos h]

/-- C4: for every objective (initial conversation) and every behaviour of
the backend — any number of tool calls per response — one invocation of
`_route_request` issues at most `max_agent_loops = 5` completion
requests; and when every response carries tool calls, so no final
(no-tool-calls) response ever arrives, the invocation returns the fixed
maximum-loop-count sentinel after exactly 5 requests. -/
theorem route_request_bounded (be : Backend) (mc : String)
    (msgs : List Message) (cfo0 : CFOController) :
    (route_request be mc msgs cfo0).2.requests ≤ max_agent_loops
    ∧ ((∀ n ms, ∃ m, be.complete n ms = .success m none ∧ m.tool_calls ≠ []) →
        (route_request be mc msgs cfo0).1 = loopSentinel
        ∧ (route_request be mc msgs cfo0).2.requests = max_agent_loops) := by
  constructor
  · simpa using routeGo_requests_le be mc max_agent_loops 0
      { messages := msgs, cfo := cfo0, requests := 0, executed := [] }
  · intro h
    have := routeGo_all_tools be mc h max_agent_loops 0
      { messages := msgs, cfo := cfo0, requests := 0, executed := [] }
    simpa [route_request] using this

/-- Witness for C4: a backend that always requests one more tool call
drives the loop into the sentinel after exactly 5 requests. -/
theorem route_request_bounded_witness :
    (route_request
        ⟨fun _ _ => .success ⟨none, [⟨"1", "read_file", "x"⟩]⟩ none,
          fun c _ => ("", c)⟩
        "gpt-4o" [.user "hi"] (freshCFO 2)).1 = loopSentinel
    ∧ (route_request
        ⟨fun _ _ => .success ⟨none, [⟨"1", "read_file", "x"⟩]⟩ none,
          fun c _ => ("", c)⟩
        "gpt-4o" [.user "hi"] (freshCFO 2)).2.requests = max_agent_loops :=
  (route_request_bounded _ "gpt-4o" [.user "hi"] (freshCFO 2)).2
    (fun _ _ => ⟨⟨none, [⟨"1", "read_file", "x"⟩]⟩, rfl, by simp⟩)

/-- C5: in any loop iteration of `_route_request`, when charging the
estimated cost of the response raises `TokenLimitExceeded`, the invocation
immediately returns the fixed circuit-breaker sentinel: the conversation
gets no new message for that turn, none of the tool calls carried by the
response is executed, no further backend request is issued (the request
counter advances only by the request already made), and the ledger keeps
the breaching charge. -/
theorem circuit_breaker_aborts (be : Backend) (mc : String)
    (fuel loops : ℕ) (s : RouteState) (msg : RespMessage) (u : Usage)
    (hresp : be.complete loops s.messages = .success msg (some u))
    (hbreach : s.cfo.max_daily_spend
      < s.cfo.current_daily_spend
        + estimate_cost u.prompt_tokens u.completion_tokens mc) :
    routeGo be mc (fuel + 1) loops s
      = (breakerSentinel,
          { messages := s.messages
            cfo := ⟨s.cfo.max_daily_spend,
              s.cfo.current_daily_spend
                + estimate_cost u.prompt_tokens u.completion_tokens mc⟩
            requests := s.requests + 1
            executed := s.executed }) := by
  simp only [routeGo, hresp]
  rw [add_cost_breach s.cfo _ hbreach]

/-- Witness for C5: with ceiling 2.00 and a response whose usage prices
to 10.00 on the gpt-4o row, the loop returns the circuit-breaker
sentinel with the charge recorded and nothing executed or appended. -/
theorem circuit_breaker_aborts_witness :
    ((⟨fun _ _ => .success ⟨some "done", []⟩ (some ⟨2000000, 0⟩),
        fun c _ => ("", c)⟩ : Backend).complete 0 [.user "q"]
      = .success ⟨some "done", []⟩ (some ⟨2000000, 0⟩)
    ∧ (freshCFO 2.00).max_daily_spend
        < (freshCFO 2.00).current_daily_spend
          + estimate_cost 2000000 0 "gpt-4o")
    ∧ routeGo
        ⟨fun _ _ => .success ⟨some "done", []⟩ (some ⟨2000000, 0⟩),
          fun c _ => ("", c)⟩
        "gpt-4o" 5 0 ⟨[.user "q"], freshCFO 2.00, 0, []⟩
      = (breakerSentinel,
          { messages := [.user "q"]
            cfo := ⟨(freshCFO 2.00).max_daily_spend,
              (freshCFO 2.00).current_daily_spend
                + estimate_cost 2000000 0 "gpt-4o"⟩
            requests := 0 + 1
            executed := [] }) :=
  ⟨⟨rfl, by simp [freshCFO, estimate_cost, pricing_map]; norm_num⟩,
    circuit_breaker_aborts _ "gpt-4o" 4 0 ⟨[.user "q"], freshCFO 2.00, 0, []⟩
      ⟨some "done", []⟩ ⟨2000000, 0⟩ rfl
      (by simp [freshCFO, estimate_cost, pricing_map]; norm_num)⟩

/-- C6: `validate_code` runs the command (a literal argument vector, no
shell) inside a retry loop bounded by `max_retries = 3`: exit code 0
returns `true` immediately; a non-zero exit calls `refactor_file` with a
repair objective embedding the joined command line and the captured
stderr (falling back to stdout when stderr is empty) and retries; exits
1, 1, 0 across three invocations yield `true` after exactly the two
corresponding repair calls; a timeout aborts the whole loop immediately
with `false`, making no further run or repair; and exhausting the
retries without a zero exit yields `false`. -/
theorem validate_code_spec :
    (∀ (w : ValidationWorld) (cmd : List String) (o e : String),
      w.runs 0 = .exited 0 o e → validate_code w cmd = ⟨true, 1, []⟩)
    ∧ (∀ (w : ValidationWorld) (cmd : List String) (o0 e0 o1 e1 o2 e2 : String),
      w.runs 0 = .exited 1 o0 e0 → w.runs 1 = .exited 1 o1 e1 →
      w.runs 2 = .exited 0 o2 e2 →
      validate_code w cmd
        = ⟨true, 3,
            [repairObjective cmd (if e0 = "" then o0 else e0),
             repairObjective cmd (if e1 = "" then o1 else e1)]⟩)
    ∧ (∀ (w : ValidationWorld) (cmd : List String) (fuel made : ℕ)
        (reps : List String),
      w.runs made = .timedOut →
      validateGo w cmd (fuel + 1) made reps = ⟨false, made + 1, reps⟩)
    ∧ ∀ (w : ValidationWorld) (cmd : List String),
      (∀ k, k < max_retries → ∃ code o e,
        w.runs k = .exited code o e ∧ code ≠ 0) →
      (validate_code w cmd).result = false := by
  refine ⟨?_, ?_, ?_, ?_⟩
  · intro w cmd o e h
    exact validateGo_exit_zero w cmd 2 0 [] o e h
  · intro w cmd o0 e0 o1 e1 o2 e2 h0 h1 h2
    show validateGo w cmd 3 0 [] = _
    rw [show (3 : ℕ) = 2 + 1 from rfl,
      validateGo_exit_nonzero w cmd 2 0 [] 1 o0 e0 (by norm_num) h0,
      validateGo_exit_nonzero w cmd 1 1 _ 1 o1 e1 (by norm_num) h1,
      validateGo_exit_zero w cmd 0 2 _ o2 e2 h2]
    simp
  · intro w cmd fuel made reps h
    exact validateGo_timeout w cmd fuel made reps h
  · intro w cmd hall
    have := validateGo_all_nonzero w cmd max_retries 0 []
      (by intro k hk; simpa using hall k hk)
    exact this.1

/-- Witness for C6 at the scenario of the claim: exit codes 1, 1, 0, the
first error log falling back to stdout, the second taken from stderr. -/
theorem validate_code_spec_witness :
    validate_code
        ⟨fun k => if k = 0 then .exited 1 "boom" ""
            else if k = 1 then .exited 1 "" "err" else .exited 0 "" "",
          fun _ => false⟩ ["pytest", "tests"]
      = ⟨true, 3,
          [repairObjective ["pytest", "tests"]
            (if "" = "" then "boom" else ""),
           repairObjective ["pytest", "tests"]
            (if "err" = "" then "" else "err")]⟩ :=
  validate_code_spec.2.1
    ⟨fun k => if k = 0 then .exited 1 "boom" ""
        else if k = 1 then .exited 1 "" "err" else .exited 0 "" "",
      fun _ => false⟩ ["pytest", "tests"] "boom" "" "" "err" "" ""
    rfl rfl rfl

/-- C7: the fence-stripping step of `refactor_file` uses any rewritten
text containing no fence marker verbatim; otherwise it scans line by
line, a line beginning with the marker toggles the inside-block flag and
is itself discarded (language tag included), and only lines seen while
the flag is true are kept; in particular the fenced `print(1)` input
strips to exactly `print(1)` with no fence marker or language tag
left. -/
theorem stripFences_spec :
    (∀ s : String, strIn "```" s = false → stripFences s = s)
    ∧ stripFences "```python\nprint(1)\n```" = "print(1)"
    ∧ strIn "```" (stripFences "```python\nprint(1)\n```") = false := by
  refine ⟨fun s h => ?_, by decide, by decide⟩
  simp [stripFences, h]

/-- Witness for C7: a marker-free text is returned verbatim. -/
theorem stripFences_spec_witness :
    strIn "```" "print(1)" = false ∧ stripFences "print(1)" = "print(1)" :=
  ⟨by decide, stripFences_spec.1 "print(1)" (by decide)⟩

/-- C8: `ask_watchdog` answers `true` exactly when the upper-cased
response text contains `"YES"` as a substring; `"Status: no action
needed"` yields `false`, and `"EYESORE detected"` yields `true` through
the embedded occurrence. -/
theorem ask_watchdog_yes_substring :
    (∀ response : String,
      ask_watchdog_decision response = true
        ↔ "YES".data <:+: (pyUpper response).data)
    ∧ ask_watchdog_decision "Status: no action needed" = false
    ∧ ask_watchdog_decision "EYESORE detected" = true := by
  refine ⟨fun r => ?_, by decide, by decide⟩
  exact hasInfix_iff "YES".data (pyUpper r).data

/-- C9: a model identifier missing from the pricing table is priced with
the fallback rate pair, whose input and output rates are strictly
positive (never free) and strictly higher than the corresponding rates of
every paid tier of the table. -/
theorem estimate_cost_fallback (model : String)
    (h : pricing_map model = none) :
    (∀ p k : ℕ, estimate_cost p k model
        = p * fallback_rates.1 + k * fallback_rates.2)
    ∧ 0 < fallback_rates.1 ∧ 0 < fallback_rates.2
    ∧ ∀ (name : String) (r : ℚ × ℚ), pricing_map name = some r →
        0 < r.1 ∨ 0 < r.2 →
        r.1 < fallback_rates.1 ∧ r.2 < fallback_rates.2 := by
  refine ⟨?_, by norm_num [fallback_rates], by norm_num [fallback_rates], ?_⟩
  · intro p k
    simp [estimate_cost, h]
  · intro name r hr hpaid
    unfold pricing_map at hr
    split at hr
    · injection hr with hr; subst hr
      constructor <;> norm_num [fallback_rates]
    · split at hr
      · injection hr with hr; subst hr
        constructor <;> norm_num [fallback_rates]
      · split at hr
        · injection hr with hr; subst hr
          rcases hpaid with h1 | h1 <;> norm_num at h1
        · exact Option.noConfusion hr

/-- Witness for C9 at a concrete unknown identifier. -/
theorem estimate_cost_fallback_witness :
    pricing_map "mystery-model" = none
    ∧ ((∀ p k : ℕ, estimate_cost p k "mystery-model"
        = p * fallback_rates.1 + k * fallback_rates.2)
      ∧ 0 < fallback_rates.1 ∧ 0 < fallback_rates.2
      ∧ ∀ (name : String) (r : ℚ × ℚ), pricing_map name = some r →
          0 < r.1 ∨ 0 < r.2 →
          r.1 < fallback_rates.1 ∧ r.2 < fallback_rates.2) :=
  ⟨by decide, estimate_cost_fallback "mystery-model" (by decide)⟩

/-- C10: the boolean result of the repair call inside `validate_code` is
discarded: the observable trace is independent of the repair results, and
even when every repair fails the loop still increments the retry counter
and re-runs the command — with every run exiting non-zero it performs
`max_retries` runs and `max_retries` repair calls before returning
`false`, never aborting early and never raising. -/
theorem validate_code_ignores_refactor_result :
    (∀ (runs : ℕ → RunOutcome) (r1 r2 : ℕ → Bool) (cmd : List String),
      validate_code ⟨runs, r1⟩ cmd = validate_code ⟨runs, r2⟩ cmd)
    ∧ ∀ (runs : ℕ → RunOutcome) (cmd : List String),
      (∀ k, k < max_retries → ∃ code o e,
        runs k = .exited code o e ∧ code ≠ 0) →
      (validate_code ⟨runs, fun _ => false⟩ cmd).result = false
      ∧ (validate_code ⟨runs, fun _ => false⟩ cmd).runsMade = max_retries
      ∧ (validate_code ⟨runs, fun _ => false⟩ cmd).repairs.length
          = max_retries := by
  constructor
  · intro runs r1 r2 cmd
    exact validateGo_refactor_independent runs r1 r2 cmd max_retries 0 []
  · intro runs cmd hall
    have := validateGo_all_nonzero ⟨runs, fun _ => false⟩ cmd max_retries 0 []
      (by intro k hk; simpa using hall k hk)
    simpa using this

/-- Witness for C10: every run exits 1 and every repair fails, yet the
loop performs all three runs and three repair calls. -/
theorem validate_code_ignores_refactor_result_witness :
    (validate_code ⟨fun _ => .exited 1 "x" "y", fun _ => false⟩
        ["pytest"]).result = false
    ∧ (validate_code ⟨fun _ => .exited 1 "x" "y", fun _ => false⟩
        ["pytest"]).runsMade = max_retries
    ∧ (validate_code ⟨fun _ => .exited 1 "x" "y", fun _ => false⟩
        ["pytest"]).repairs.length = max_retries :=
  validate_code_ignores_refactor_result.2 (fun _ => .exited 1 "x" "y")
    ["pytest"] (fun _ _ => ⟨1, "x", "y", rfl, by norm_num⟩)

end Comander
